import Mathlib

/-!
Verification of the prestgo Presto driver (conn.go) against its design
specification. The Go source is shallowly embedded: pure converters become
Lean functions, the HTTP transport is a function from a request URI to an
outcome, and the stateful polling loop (`rows.fetch` / `rows.waitForData`)
is fuel-indexed explicit state passing that also records the trace of
polled URIs and performed sleeps.
-/

namespace Prestgo

/-- Raw wire value: the result of Go's `encoding/json` decoding into
`interface\x7b\x7d`. JSON numbers decode as `float64`; they are modelled as
rationals (every JSON literal is a finite decimal). Nested arrays/objects
(only ever passed through opaquely by the row converter) are modelled by the
`nested` tag carrying their rendering; no claim inspects their structure. -/
inductive RawValue where
  | null
  | num (q : ℚ)
  | str (s : String)
  | boolean (b : Bool)
  | nested (rendering : String)
deriving DecidableEq, Repr

/-- Go `float64` results of the double converter: finite values plus the
IEEE specials produced by `math.Inf` / `math.NaN`. -/
inductive GoFloat where
  | finite (q : ℚ)
  | infPos
  | infNeg
  | nanF
deriving DecidableEq, Repr

/-- Symbolic model of Go `time.Time` as produced by
`time.ParseInLocation layout value loc`: a successful parse is fully
determined by its three inputs, so the instant is represented by them. -/
structure GoTime where
  layout : String
  value : String
  loc : String
deriving DecidableEq, Repr

/-- Model of Go `*time.Location`: identified by the zone name passed to
`time.LoadLocation`. -/
structure Location where
  name : String
deriving DecidableEq, Repr

/-- Model of Go's `time` stdlib behaviour that conn.go calls into:
which zone names `LoadLocation` accepts (depends on the host tz database)
and which (layout, value) pairs `ParseInLocation` accepts (independent of
the location argument for the fixed layouts used here). -/
structure TimeLib where
  validZone : String → Bool
  parseOk : String → String → Bool

/-- Structured server error payload carried in the `error` field of the
response envelope. Modelled from the spec: the error type lives in the
repository's types.go, which is not part of src/; the spec (§6, §7) says it
is a structured server error propagated verbatim. -/
structure ServerError where
  message : String
deriving DecidableEq, Repr

/-- Go `error` values that conn.go can produce or propagate. -/
inductive GoError where
  | errNotSupported
  | errQueryFailed
  | errQueryCanceled
  | serverErr (e : ServerError)
  | reqErr (msg : String)
  | transportErr (msg : String)
  | decodeErr (msg : String)
  | ioEOF
  | convErr (value : RawValue) (rep : String) (target : String)
  | tzErr (zone : String)
  | parseErr (value : String)
deriving DecidableEq, Repr

/-- Column metadata: name and declared type string. Modelled from the spec:
the struct lives in types.go (not in src/); spec §6 gives the envelope shape
`columns: [ (name, type), ... ]`. -/
structure Column where
  name : String
  type : String
deriving DecidableEq, Repr

/-- Stats of the response envelope: the execution state string. Modelled
from the spec (§6). -/
structure Stats where
  state : String
deriving DecidableEq, Repr

/-- Response envelope of both the submission and the poll calls. Modelled
from the spec (§6): `stats.state`, `error`, `nextUri`, `columns`, `data`.
Absent JSON fields decode to Go zero values: empty string / empty slices /
zero-valued error. -/
structure QueryResponse where
  stats : Stats
  error : ServerError
  nextURI : String
  columns : List Column
  data : List (List RawValue)
deriving DecidableEq, Repr

-- Constants from conn.go.

def DriverName : String := "prestgo"
def DefaultPort : String := "8080"
def DefaultCatalog : String := "hive"
def DefaultSchema : String := "default"
def DefaultUsername : String := "prestgo"
def TimestampFormat : String := "2006-01-02 15:04:05.000"
def DateFormat : String := "2006-01-02"

/-- The hard-coded backoff between not-ready polls in `rows.fetch`:
`time.Sleep(800 * time.Millisecond)` (the code carries a TODO to make this
interval configurable; no configuration point exists). -/
def backoffIntervalMs : Nat := 800

/-- The hard-coded delay before the first poll in `stmt.Query`:
`time.Sleep(500 * time.Millisecond)`. -/
def initialDelayMs : Nat := 500

/-- Execution state strings. Modelled from the spec (§3): the constants
live in types.go (not in src/). -/
def QueryStateQueued : String := "QUEUED"
def QueryStatePlanning : String := "PLANNING"
def QueryStateStarting : String := "STARTING"
def QueryStateRunning : String := "RUNNING"
def QueryStateFinished : String := "FINISHED"
def QueryStateFailed : String := "FAILED"
def QueryStateCanceled : String := "CANCELED"

namespace PrestoType

/-! Declared-type name constants. Modelled from the spec (§4.3 table): the
constants live in types.go (not in src/). -/

def Row : String := "row"
def VarChar : String := "varchar"
def Char : String := "char"
def JSON : String := "json"
def BigInt : String := "bigint"
def Integer : String := "integer"
def Smallint : String := "smallint"
def Tinyint : String := "tinyint"
def Boolean : String := "boolean"
def Double : String := "double"
def Real : String := "real"
def Decimal : String := "decimal"
def Date : String := "date"
def Time : String := "time"
def TimeWithTimezone : String := "time with time zone"
def Timestamp : String := "timestamp"
def TimestampWithTimezone : String := "timestamp with time zone"

end PrestoType

/-- Go `%T` of a decoded JSON value, as printed by the converters'
`fmt.Errorf("... %v (%T) ...")`. -/
def goTypeName : RawValue → String
  | .null => "<nil>"
  | .num _ => "float64"
  | .str _ => "string"
  | .boolean _ => "bool"
  | .nested _ => "[]interface \x7b\x7d"

/-- Model of Go `fmt` `%v` rendering of a wire value (used only inside the
generic string converter for non-string values; no claim depends on the
exact rendering of numbers). -/
def goSprint : RawValue → String
  | .null => "<nil>"
  | .num q => toString q
  | .str s => s
  | .boolean b => if b then "true" else "false"
  | .nested r => r

/-- Native values (Go `driver.Value`) produced by the converters. -/
inductive Value where
  | null
  | int64 (n : ℤ)
  | float64 (f : GoFloat)
  | str (s : String)
  | boolean (b : Bool)
  | time (t : GoTime)
  | raw (v : RawValue)
deriving DecidableEq, Repr

/-- `time.LoadLocation name`: succeeds exactly on the zone names the host
database knows. -/
def loadLocation (lib : TimeLib) (name : String) : Except GoError Location :=
  if lib.validZone name then .ok ⟨name⟩ else .error (.tzErr name)

/-- `time.ParseInLocation layout value loc` under the symbolic time model. -/
def parseInLocation (lib : TimeLib) (layout value : String) (loc : Location) :
    Except GoError GoTime :=
  if lib.parseOk layout value then .ok ⟨layout, value, loc.name⟩
  else .error (.parseErr value)

/-- Embeds `rowConverter.ConvertValue`: nil passes through, anything else is
returned unconverted (documented limitation: structs are not flattened). -/
def rowConverterConvert (t : String) (v : RawValue) : Except GoError Value :=
  match t, v with
  | _, .null => .ok .null
  | _, v => .ok (.raw v)

/-- Embeds `stringConverter`: nil passes through; `driver.String.ConvertValue`
returns strings unchanged and renders anything else with `%v`. -/
def stringConverter : RawValue → Except GoError Value
  | .null => .ok .null
  | .str s => .ok (.str s)
  | v => .ok (.str (goSprint v))

/-- Model of Go `strconv.ParseBool` (reached through `driver.Bool`). -/
def goParseBool (s : String) : Option Bool :=
  if s = "1" ∨ s = "t" ∨ s = "T" ∨ s = "TRUE" ∨ s = "true" ∨ s = "True" then some true
  else if s = "0" ∨ s = "f" ∨ s = "F" ∨ s = "FALSE" ∨ s = "false" ∨ s = "False" then some false
  else none

/-- Embeds `boolConverter`: nil passes through, then `driver.Bool.ConvertValue`
(bools unchanged, strings via ParseBool, everything else fails). -/
def boolConverter : RawValue → Except GoError Value
  | .null => .ok .null
  | .boolean b => .ok (.boolean b)
  | .str s =>
    match goParseBool s with
    | some b => .ok (.boolean b)
    | none => .error (.convErr (.str s) "string" "bool")
  | v => .error (.convErr v (goTypeName v) "bool")

/-- Go's `int64(f)` conversion of a finite `float64`, which truncates toward
zero, on the rational model of wire numbers. (Go's behaviour when the value
overflows int64 is implementation-defined and not modelled.) -/
def goTruncToInt64 (q : ℚ) : ℤ := Int.tdiv q.num (q.den : ℤ)

/-- Embeds `bigIntConverter`: nil passes through; a `float64` is truncated to
`int64`; anything else fails with an error carrying the value, its Go runtime
type and the target type `int64`. -/
def bigIntConverter : RawValue → Except GoError Value
  | .null => .ok .null
  | .num q => .ok (.int64 (goTruncToInt64 q))
  | v => .error (.convErr v (goTypeName v) "int64")

/-- Embeds `doubleConverter`: nil passes through; `float64` unchanged; the
sentinel strings "Infinity", "-Infinity", "NaN" map to IEEE specials;
anything else fails. -/
def doubleConverter : RawValue → Except GoError Value
  | .null => .ok .null
  | .num q => .ok (.float64 (.finite q))
  | .str s =>
    if s = "Infinity" then .ok (.float64 .infPos)
    else if s = "-Infinity" then .ok (.float64 .infNeg)
    else if s = "NaN" then .ok (.float64 .nanF)
    else .error (.convErr (.str s) "string" "float64")
  | v => .error (.convErr v (goTypeName v) "float64")

/-- Embeds `dateConverter`: parse the string with `DateFormat` in UTC; on any
parse failure fall through to the conversion error. -/
def dateConverter (lib : TimeLib) : RawValue → Except GoError Value
  | .null => .ok .null
  | .str s =>
    match parseInLocation lib DateFormat s ⟨"UTC"⟩ with
    | .ok ts => .ok (.time ts)
    | .error _ => .error (.convErr (.str s) "string" "time.Time")
  | v => .error (.convErr v (goTypeName v) "time.Time")

/-- Embeds `timestampConverter`: parse the string with `TimestampFormat` in
UTC; on any parse failure fall through to the conversion error. -/
def timestampConverter (lib : TimeLib) : RawValue → Except GoError Value
  | .null => .ok .null
  | .str s =>
    match parseInLocation lib TimestampFormat s ⟨"UTC"⟩ with
    | .ok ts => .ok (.time ts)
    | .error _ => .error (.convErr (.str s) "string" "time.Time")
  | v => .error (.convErr v (goTypeName v) "time.Time")

/-- `strings.LastIndex s (String.singleton c)` modelled over characters (Go
indexes bytes; for the ASCII values these converters deal with the indices
coincide). `none` models Go's -1. -/
def lastIndexOf (s : String) (c : Char) : Option Nat :=
  (List.range s.length).reverse.find? (fun i => s.toList.getD i (Char.ofNat 0) == c)

/-- Go's slice `s[:n]` over the character model. -/
def strTake (s : String) (n : Nat) : String :=
  (s.toList.take n).asString

/-- Go's slice `s[n:]` over the character model. -/
def strDrop (s : String) (n : Nat) : String :=
  (s.toList.drop n).asString

/-- Go's `strings.TrimSpace` over the character model: strip leading and
trailing whitespace. -/
def goTrimSpace (s : String) : String :=
  (((s.toList.dropWhile Char.isWhitespace).reverse.dropWhile Char.isWhitespace).reverse).asString

/-- Go's `strings.HasPrefix` over the character model: the declared type
starts with the given pattern. -/
def goStartsWith (s pat : String) : Bool :=
  s.toList.take pat.length == pat.toList

/-- Embeds `timestampWithTimezoneConverter`: values no longer than the
timestamp layout, or containing no space, fall back to the plain timestamp
converter; otherwise the value is split at its last space, the trailing token
(trimmed) is loaded as a time zone and the leading part is parsed with
`TimestampFormat` in that zone. -/
def timestampWithTimezoneConverter (lib : TimeLib) : RawValue → Except GoError Value
  | .null => .ok .null
  | .str vv =>
    if vv.length ≤ TimestampFormat.length then timestampConverter lib (.str vv)
    else
      match lastIndexOf vv ' ' with
      | none => timestampConverter lib (.str vv)
      | some tzOffset =>
        match loadLocation lib (goTrimSpace (strDrop vv tzOffset)) with
        | .error e => .error e
        | .ok tz =>
          match parseInLocation lib TimestampFormat (strTake vv tzOffset) tz with
          | .error e => .error e
          | .ok ts => .ok (.time ts)
  | v => .error (.convErr v (goTypeName v) "time.Time")

/-- The converter assigned to a column at schema-binding time: one tag per
converter value occurring in `rows.fetch`'s switch. -/
inductive ConvKind where
  | rowConv (t : String)
  | stringConv
  | bigIntConv
  | boolConv
  | doubleConv
  | dateConv
  | timestampConv
  | timestampWithTimezoneConv
deriving DecidableEq, Repr

/-- Embeds the `switch` in `rows.fetch` that assigns `r.types[i]` from the
declared column type (the default branch also prints a diagnostic notice,
a side effect not modelled). -/
def chooseConverter (t : String) : ConvKind :=
  if goStartsWith t PrestoType.Row then .rowConv t
  else if goStartsWith t PrestoType.VarChar || goStartsWith t PrestoType.Char then .stringConv
  else if t = PrestoType.JSON then .stringConv
  else if t = PrestoType.BigInt ∨ t = PrestoType.Integer ∨ t = PrestoType.Smallint ∨
      t = PrestoType.Tinyint then .bigIntConv
  else if t = PrestoType.Boolean then .boolConv
  else if t = PrestoType.Double ∨ t = PrestoType.Real then .doubleConv
  else if goStartsWith t PrestoType.Decimal then .stringConv
  else if t = PrestoType.Date then .dateConv
  else if t = PrestoType.Time then .stringConv
  else if t = PrestoType.TimeWithTimezone then .stringConv
  else if t = PrestoType.Timestamp then .timestampConv
  else if t = PrestoType.TimestampWithTimezone then .timestampWithTimezoneConv
  else .stringConv

/-- `ConvertValue` of the converter a tag denotes. -/
def applyConverter (lib : TimeLib) : ConvKind → RawValue → Except GoError Value
  | .rowConv t, v => rowConverterConvert t v
  | .stringConv, v => stringConverter v
  | .bigIntConv, v => bigIntConverter v
  | .boolConv, v => boolConverter v
  | .doubleConv, v => doubleConverter v
  | .dateConv, v => dateConverter lib v
  | .timestampConv, v => timestampConverter lib v
  | .timestampWithTimezoneConv, v => timestampWithTimezoneConverter lib v

/-- Outcome of decoding an HTTP response body with `json.Decoder.Decode`. -/
inductive Body where
  | malformed (msg : String)
  | decoded (q : QueryResponse)
deriving DecidableEq, Repr

/-- Outcome of one HTTP exchange: `http.NewRequest` failure, `client.Do`
failure (transport-level: DNS, refused connection, timeout), or a response
with a status code and a body. -/
inductive HTTPOutcome where
  | reqFail (msg : String)
  | doFail (msg : String)
  | resp (status : Nat) (body : Body)
deriving DecidableEq, Repr

/-- The injected transport: what a GET of a given URI returns. One query's
polling only ever issues GETs to continuation URIs, so the transport is
keyed by URI. -/
def Server := String → HTTPOutcome

/-- The mutable fields of the `rows` struct (the `conn` pointer is carried
separately as the `Server`/`TimeLib` environment). Zero values mirror Go's. -/
structure RowsState where
  nextURI : String
  fetched : Bool := false
  rowindex : Nat := 0
  columns : List String := []
  types : List ConvKind := []
  data : List (List RawValue) := []
deriving DecidableEq, Repr

/-- The (qresp, gotData, err) triple returned by `rows.waitForData`. -/
inductive WFDResult where
  | failed (e : GoError)
  | notReady
  | gotData (q : QueryResponse)
deriving DecidableEq, Repr

/-- Embeds `rows.waitForData`: GET the current `nextURI`; propagate request
construction and transport errors raw; a non-200 status is `ErrQueryFailed`;
decode errors propagate; FAILED yields the server error verbatim, CANCELED
yields `ErrQueryCanceled`; a non-terminal state with an empty data page
records the new handle in `nextURI` and reports not-ready; everything else
is a successful poll. -/
def waitForData (server : Server) (r : RowsState) : RowsState × WFDResult :=
  match server r.nextURI with
  | .reqFail msg => (r, .failed (.reqErr msg))
  | .doFail msg => (r, .failed (.transportErr msg))
  | .resp status body =>
    if status ≠ 200 then (r, .failed .errQueryFailed)
    else
      match body with
      | .malformed msg => (r, .failed (.decodeErr msg))
      | .decoded q =>
        if q.stats.state = QueryStateFailed then (r, .failed (.serverErr q.error))
        else if q.stats.state = QueryStateCanceled then (r, .failed .errQueryCanceled)
        else if q.stats.state = QueryStatePlanning ∨ q.stats.state = QueryStateQueued ∨
            q.stats.state = QueryStateRunning ∨ q.stats.state = QueryStateStarting then
          if q.data = [] then ({ r with nextURI := q.nextURI }, .notReady)
          else (r, .gotData q)
        else (r, .gotData q)

/-- The schema-binding block of `rows.fetch` (run only when `fetched` is
still false): bind column names and per-column converters from the surfaced
response's `columns` and mark the schema bound. -/
def bindSchema (r : RowsState) (q : QueryResponse) : RowsState :=
  { r with
    columns := q.columns.map Column.name
    types := q.columns.map (fun col => chooseConverter col.type)
    fetched := true }

/-- Observable side effects of one `rows.fetch` call: the URIs requested (in
order) and the sleep durations performed (in order, milliseconds). -/
structure FetchTrace where
  polled : List String
  sleeps : List Nat
deriving DecidableEq, Repr

/-- Embeds `rows.fetch`, fuel-indexed (the Go loop has no bound — a TODO
notes the missing timeout; `none` models exceeding the fuel while still
polling). On a not-ready poll it sleeps `backoffIntervalMs` and retries with
the updated handle; on a successful poll it resets the cursor, adopts the
page and next handle, binds the schema if not yet bound, and reports `io.EOF`
for an empty page. The second component is the returned error (`none` for a
nil error). -/
def fetchAux (server : Server) : Nat → RowsState → Option (RowsState × Option GoError × FetchTrace)
  | 0, _ => none
  | fuel+1, r =>
    let u := r.nextURI
    match waitForData server r with
    | (r1, .failed e) => some (r1, some e, ⟨[u], []⟩)
    | (r1, .notReady) =>
      match fetchAux server fuel r1 with
      | none => none
      | some (r2, res, tr) =>
        some (r2, res, ⟨u :: tr.polled, backoffIntervalMs :: tr.sleeps⟩)
    | (r1, .gotData q) =>
      let r2 := { r1 with rowindex := 0, data := q.data, nextURI := q.nextURI }
      let r3 := if !r2.fetched then bindSchema r2 q else r2
      if q.data = [] then some (r3, some .ioEOF, ⟨[u], []⟩)
      else some (r3, none, ⟨[u], []⟩)

/-- Embeds `rows.Columns`: trigger the first fetch if the schema is not yet
bound; any fetch error (including `io.EOF`) makes it return the empty list;
otherwise return the bound column names. -/
def Columns (server : Server) (fuel : Nat) (r : RowsState) :
    Option (RowsState × List String) :=
  if !r.fetched then
    match fetchAux server fuel r with
    | none => none
    | some (r1, some _, _) => some (r1, [])
    | some (r1, none, _) => some (r1, r1.columns)
  else some (r, r.columns)

/-- The conversion loop of `rows.Next`: convert the current raw row value by
value with the bound converters, stopping at the first failure. (Go writes
converted values into the caller's buffer as it goes and indexes
`row[i]` without a bounds check — a row shorter than the schema would panic;
the model reads a null in that never-exercised case.) -/
def convertRow (lib : TimeLib) : List ConvKind → List RawValue → Except GoError (List Value)
  | [], _ => .ok []
  | k :: ts, vs =>
    match applyConverter lib k (vs.headD .null) with
    | .error e => .error e
    | .ok v =>
      match convertRow lib ts vs.tail with
      | .error e => .error e
      | .ok rest => .ok (v :: rest)

/-- Embeds `rows.Next`: if nothing is fetched yet or the current page is
exhausted, an empty `nextURI` signals `io.EOF`; otherwise fetch the next
page (propagating its error); then convert the current row and advance the
cursor. `.ok vals` stands for a successful fill of the caller's buffer. -/
def Next (server : Server) (lib : TimeLib) (fuel : Nat) (r : RowsState) :
    Option (RowsState × Except GoError (List Value)) :=
  if !r.fetched || decide (r.data.length ≤ r.rowindex) then
    if r.nextURI = "" then some (r, .error .ioEOF)
    else
      match fetchAux server fuel r with
      | none => none
      | some (r1, some e, _) => some (r1, .error e)
      | some (r1, none, _) =>
        match convertRow lib r1.types (r1.data.getD r1.rowindex []) with
        | .error e => some (r1, .error e)
        | .ok vals => some ({ r1 with rowindex := r1.rowindex + 1 }, .ok vals)
  else
    match convertRow lib r.types (r.data.getD r.rowindex []) with
    | .error e => some (r, .error e)
    | .ok vals => some ({ r with rowindex := r.rowindex + 1 }, .ok vals)

/-- Embeds `stmt.Query` given the outcome of the submission POST: non-empty
argument lists are unsupported; request/transport errors propagate raw; a
non-200 status is `ErrQueryFailed`; decode errors propagate; a FAILED state
in the immediate response returns the server error verbatim; otherwise (after
the fixed `initialDelayMs` sleep, a pure delay) a fresh `rows` value is
created holding the response's continuation handle. -/
def stmtQuery (submit : HTTPOutcome) (numArgs : Nat) : Except GoError RowsState :=
  if numArgs > 0 then .error .errNotSupported
  else
    match submit with
    | .reqFail msg => .error (.reqErr msg)
    | .doFail msg => .error (.transportErr msg)
    | .resp status body =>
      if status ≠ 200 then .error .errQueryFailed
      else
        match body with
        | .malformed msg => .error (.decodeErr msg)
        | .decoded sresp =>
          if sresp.stats.state = "FAILED" then .error (.serverErr sresp.error)
          else .ok { nextURI := sresp.nextURI }

/-- The poll GETs issued by a whole driver flow "submit, then run the first
fetch": when submission fails no `rows` value exists, so no poll is ever
issued. -/
def runQueryPolls (submit : HTTPOutcome) (numArgs : Nat) (server : Server)
    (fuel : Nat) : Option (List String) :=
  match stmtQuery submit numArgs with
  | .error _ => some []
  | .ok r =>
    match fetchAux server fuel r with
    | none => none
    | some (_, _, tr) => some tr.polled

/-- The configuration map built by `config.parseDataSource`, as a lookup
function (Go's `map[string]string`). -/
def Config := String → Option String

def emptyConfig : Config := fun _ => none

/-- `c[k] = v` on the configuration map. -/
def configSet (c : Config) (k v : String) : Config :=
  fun k2 => if k2 = k then some v else c k2

/-- The already-parsed pieces of the data source URL that
`config.parseDataSource` reads: `u.User` (with its username), `u.Host`,
`u.Path`, and the `url.Values` map parsed from `u.RawQuery` (an association
list with pairwise-distinct keys, since `url.Values` is a Go map). -/
structure URL where
  user : Option String
  host : String
  path : String
  query : List (String × List String)

/-- `strings.FieldsFunc(p, isSlash)`: the non-empty substrings between
slashes. -/
def fieldsFuncSlash (p : String) : List String :=
  (p.split (fun c => c = '/')).filter (fun s => s ≠ "")

/-- Embeds `config.parseDataSource` (after `url.Parse` succeeded): user from
the URL's userinfo or the default; addr from the host with the default port
appended when no colon is present; catalog and schema from defaults, then
overridden by the first two path segments; finally every query parameter is
merged into the same map, its values joined with commas. -/
def parseDataSource (u : URL) (c : Config) : Config :=
  let c := match u.user with
    | some name => configSet c "user" name
    | none => configSet c "user" DefaultUsername
  let c := if u.host.contains ':' = false then
      configSet c "addr" (u.host ++ ":" ++ DefaultPort)
    else configSet c "addr" u.host
  let c := configSet c "catalog" DefaultCatalog
  let c := configSet c "schema" DefaultSchema
  let pathSegments := fieldsFuncSlash u.path
  let c := if pathSegments.length > 0 then
      configSet c "catalog" (pathSegments.getD 0 "")
    else c
  let c := if pathSegments.length > 1 then
      configSet c "schema" (pathSegments.getD 1 "")
    else c
  u.query.foldl (fun c kv => configSet c kv.1 (String.intercalate "," kv.2)) c

/-! ### Derived views of the polling loop, used to state trace properties. -/

/-- Classification of what polling one URI does, as a function of the
transport alone (`waitForData` re-expressed without the state plumbing). -/
inductive PollClass where
  | failed (e : GoError)
  | notReady (next : String)
  | surfaced (q : QueryResponse)
deriving DecidableEq, Repr

/-- The classification of `server`'s answer at one URI, mirroring
`waitForData`'s case analysis. -/
def classify (server : Server) (u : String) : PollClass :=
  match server u with
  | .reqFail msg => .failed (.reqErr msg)
  | .doFail msg => .failed (.transportErr msg)
  | .resp status body =>
    if status ≠ 200 then .failed .errQueryFailed
    else
      match body with
      | .malformed msg => .failed (.decodeErr msg)
      | .decoded q =>
        if q.stats.state = QueryStateFailed then .failed (.serverErr q.error)
        else if q.stats.state = QueryStateCanceled then .failed .errQueryCanceled
        else if q.stats.state = QueryStatePlanning ∨ q.stats.state = QueryStateQueued ∨
            q.stats.state = QueryStateRunning ∨ q.stats.state = QueryStateStarting then
          if q.data = [] then .notReady q.nextURI
          else .surfaced q
        else .surfaced q

/-- The chain of URIs a fetch with the given fuel polls, starting from a
handle: each not-ready poll contributes its recorded next handle. -/
def polls (server : Server) : Nat → String → List String
  | 0, _ => []
  | fuel+1, u =>
    match classify server u with
    | .notReady next => u :: polls server fuel next
    | _ => [u]

/-- Whether every poll along the chain of the given length is a not-ready
poll (non-terminal state, empty data page). -/
def allNotReady (server : Server) : Nat → String → Bool
  | 0, _ => true
  | fuel+1, u =>
    match classify server u with
    | .notReady next => allNotReady server fuel next
    | _ => false

deriving instance DecidableEq for Except

/-! ### Concrete instances used by witnesses and counterexamples. -/

/-- A time stdlib knowing only the UTC zone and one parseable timestamp. -/
def lib0 : TimeLib :=
  ⟨fun z => z = "UTC", fun _ v => v = "2020-01-01 00:00:00.000"⟩

/-- A not-ready response (non-terminal state, empty data) pointing at the
given next handle. -/
def notReadyResp (state next : String) : QueryResponse :=
  ⟨⟨state⟩, ⟨""⟩, next, [], []⟩

/-- A transport whose two handles point at each other with RUNNING and no
data: the query never becomes ready. -/
def serverCycle : Server := fun u =>
  if u = "h1" then .resp 200 (.decoded (notReadyResp "RUNNING" "h2"))
  else if u = "h2" then .resp 200 (.decoded (notReadyResp "RUNNING" "h1"))
  else .doFail "no such page"

/-- A transport where a not-ready poll at "h1" itself carries a non-empty
`columns` field (named "x"), while the surfaced page at "h2" carries columns
named "y": used to separate "first response with non-empty columns" from
"first surfaced response". -/
def serverC3 : Server := fun u =>
  if u = "h1" then
    .resp 200 (.decoded ⟨⟨"QUEUED"⟩, ⟨""⟩, "h2", [⟨"x", "bigint"⟩], []⟩)
  else if u = "h2" then
    .resp 200 (.decoded ⟨⟨"FINISHED"⟩, ⟨""⟩, "", [⟨"y", "varchar"⟩], [[.str "one"]]⟩)
  else .doFail "no such page"

/-- A transport with a three-handle chain ending in a surfaced page. -/
def serverChain : Server := fun u =>
  if u = "h1" then .resp 200 (.decoded (notReadyResp "QUEUED" "h2"))
  else if u = "h2" then .resp 200 (.decoded (notReadyResp "STARTING" "h3"))
  else if u = "h3" then
    .resp 200 (.decoded ⟨⟨"FINISHED"⟩, ⟨""⟩, "", [⟨"x", "varchar"⟩], [[.str "one"]]⟩)
  else .doFail "no such page"

/-- A transport whose single page is terminal: FINISHED, a bound schema,
zero data rows and no next handle. -/
def serverFinal : Server := fun u =>
  if u = "h1" then
    .resp 200 (.decoded ⟨⟨"FINISHED"⟩, ⟨""⟩, "", [⟨"x", "bigint"⟩], []⟩)
  else .doFail "no such page"

/-- The immediate submission response of a query that failed at once. -/
def failedSubmission : QueryResponse :=
  ⟨⟨"FAILED"⟩, ⟨"syntax error"⟩, "", [], []⟩

end Prestgo

namespace Prestgo

/-! ## Theorems -/

/-- Bridge between the stateful `waitForData` and the stateless `classify`
view of one poll. -/
theorem waitForData_eq_classify (server : Server) (r : RowsState) :
    waitForData server r =
      match classify server r.nextURI with
      | .failed e => (r, .failed e)
      | .notReady next => ({ r with nextURI := next }, .notReady)
      | .surfaced q => (r, .gotData q) := by
  unfold waitForData classify
  cases server r.nextURI with
  | reqFail msg => rfl
  | doFail msg => rfl
  | resp status body =>
    by_cases hs : status ≠ 200
    · simp only [if_pos hs]
    · simp only [if_neg hs]
      cases body with
      | malformed msg => rfl
      | decoded q =>
        by_cases h1 : q.stats.state = QueryStateFailed
        · simp only [if_pos h1]
        · simp only [if_neg h1]
          by_cases h2 : q.stats.state = QueryStateCanceled
          · simp only [if_pos h2]
          · simp only [if_neg h2]
            by_cases h3 : q.stats.state = QueryStatePlanning ∨
                q.stats.state = QueryStateQueued ∨ q.stats.state = QueryStateRunning ∨
                q.stats.state = QueryStateStarting
            · simp only [if_pos h3]
              by_cases h4 : q.data = []
              · simp only [if_pos h4]
              · simp only [if_neg h4]
            · simp only [if_neg h3]

/-- A failed poll never reports `io.EOF`: that error value arises only from
an empty surfaced page inside `rows.fetch`. -/
theorem classify_ne_failed_ioEOF (server : Server) (u : String) :
    classify server u ≠ PollClass.failed GoError.ioEOF := by
  unfold classify
  cases server u with
  | reqFail msg => simp
  | doFail msg => simp
  | resp status body =>
    by_cases hs : status ≠ 200
    · simp [if_pos hs]
    · simp only [if_neg hs]
      cases body with
      | malformed msg => simp
      | decoded q =>
        by_cases h1 : q.stats.state = QueryStateFailed
        · simp [if_pos h1]
        · simp only [if_neg h1]
          by_cases h2 : q.stats.state = QueryStateCanceled
          · simp [if_pos h2]
          · simp only [if_neg h2]
            by_cases h3 : q.stats.state = QueryStatePlanning ∨
                q.stats.state = QueryStateQueued ∨ q.stats.state = QueryStateRunning ∨
                q.stats.state = QueryStateStarting
            · simp only [if_pos h3]
              by_cases h4 : q.data = []
              · simp [if_pos h4]
              · simp [if_neg h4]
            · simp [if_neg h3]

/-- Consequence: the error delivered by a failed poll is never `io.EOF`. -/
theorem classify_failed_ne_ioEOF (server : Server) (u : String) (e : GoError)
    (h : classify server u = .failed e) : e ≠ .ioEOF := by
  intro he
  subst he
  exact classify_ne_failed_ioEOF server u h

/-- Step equation of `rows.fetch` at a failing poll. -/
theorem fetchAux_failed (server : Server) (fuel : Nat) (r : RowsState) (e : GoError)
    (hc : classify server r.nextURI = .failed e) :
    fetchAux server (fuel+1) r = some (r, some e, ⟨[r.nextURI], []⟩) := by
  have hw := waitForData_eq_classify server r
  rw [hc] at hw
  simp only [fetchAux, hw]

/-- Step equation of `rows.fetch` at a not-ready poll: record the new handle,
sleep one backoff interval and continue. -/
theorem fetchAux_notReady (server : Server) (fuel : Nat) (r : RowsState) (next : String)
    (hc : classify server r.nextURI = .notReady next) :
    fetchAux server (fuel+1) r =
      (match fetchAux server fuel { r with nextURI := next } with
       | none => none
       | some (r2, res, tr) =>
         some (r2, res, ⟨r.nextURI :: tr.polled, backoffIntervalMs :: tr.sleeps⟩)) := by
  have hw := waitForData_eq_classify server r
  rw [hc] at hw
  simp only [fetchAux, hw]

/-- Step equation of `rows.fetch` at a surfaced poll: adopt page, handle and
(if not yet bound) schema; an empty page yields `io.EOF`. -/
theorem fetchAux_gotData (server : Server) (fuel : Nat) (r : RowsState) (q : QueryResponse)
    (hc : classify server r.nextURI = .surfaced q) :
    fetchAux server (fuel+1) r =
      (if q.data = [] then
        some ((if r.fetched then { r with rowindex := 0, data := q.data, nextURI := q.nextURI }
               else bindSchema { r with rowindex := 0, data := q.data, nextURI := q.nextURI } q),
          some .ioEOF, ⟨[r.nextURI], []⟩)
      else
        some ((if r.fetched then { r with rowindex := 0, data := q.data, nextURI := q.nextURI }
               else bindSchema { r with rowindex := 0, data := q.data, nextURI := q.nextURI } q),
          none, ⟨[r.nextURI], []⟩)) := by
  have hw := waitForData_eq_classify server r
  rw [hc] at hw
  simp only [fetchAux, hw]
  cases hfb : r.fetched with
  | false => by_cases hd : q.data = [] <;> simp [hfb, hd]
  | true => by_cases hd : q.data = [] <;> simp [hfb, hd]

/-- Chain equation at a failing poll. -/
theorem polls_failed (server : Server) (fuel : Nat) (u : String) (e : GoError)
    (hc : classify server u = .failed e) : polls server (fuel+1) u = [u] := by
  simp only [polls, hc]

/-- Chain equation at a not-ready poll. -/
theorem polls_notReady (server : Server) (fuel : Nat) (u next : String)
    (hc : classify server u = .notReady next) :
    polls server (fuel+1) u = u :: polls server fuel next := by
  simp only [polls, hc]

/-- Chain equation at a surfaced poll. -/
theorem polls_gotData (server : Server) (fuel : Nat) (u : String) (q : QueryResponse)
    (hc : classify server u = .surfaced q) : polls server (fuel+1) u = [u] := by
  simp only [polls, hc]

/-- A chain with fuel starts at its starting handle. -/
theorem polls_getD_zero (server : Server) (fuel : Nat) (u : String) :
    (polls server (fuel+1) u).getD 0 "" = u := by
  cases hc : classify server u with
  | failed e => rw [polls_failed server fuel u e hc]; rfl
  | notReady next => rw [polls_notReady server fuel u next hc]; rfl
  | surfaced q => rw [polls_gotData server fuel u q hc]; rfl

/-- A chain with fuel has the starting handle as its head. -/
theorem polls_head (server : Server) (fuel : Nat) (u : String) :
    (polls server (fuel+1) u).head? = some u := by
  cases hc : classify server u with
  | failed e => rw [polls_failed server fuel u e hc]; rfl
  | notReady next => rw [polls_notReady server fuel u next hc]; rfl
  | surfaced q => rw [polls_gotData server fuel u q hc]; rfl

/-- The chain is empty exactly when there is no fuel. -/
theorem polls_eq_nil_iff (server : Server) (fuel : Nat) (u : String) :
    polls server fuel u = [] ↔ fuel = 0 := by
  cases fuel with
  | zero => simp [polls]
  | succ n =>
    simp only [Nat.succ_ne_zero, iff_false]
    cases hc : classify server u with
    | failed e => rw [polls_failed server n u e hc]; simp
    | notReady next => rw [polls_notReady server n u next hc]; simp
    | surfaced q => rw [polls_gotData server n u q hc]; simp

/-- Consecutive elements of the chain: each poll in the chain except the
last was answered not-ready, recording exactly the next chain element as
the new handle. -/
theorem polls_chain (server : Server) :
    ∀ fuel u i, i + 1 < (polls server fuel u).length →
      classify server ((polls server fuel u).getD i "") =
        .notReady ((polls server fuel u).getD (i+1) "") := by
  intro fuel
  induction fuel with
  | zero => intro u i h; simp [polls] at h
  | succ n ih =>
    intro u i h
    cases hc : classify server u with
    | failed e =>
      rw [polls_failed server n u e hc] at h
      simp at h
    | surfaced q =>
      rw [polls_gotData server n u q hc] at h
      simp at h
    | notReady next =>
      rw [polls_notReady server n u next hc] at h ⊢
      cases i with
      | zero =>
        simp only [List.getD_cons_zero, List.getD_cons_succ]
        have hne : polls server n next ≠ [] := by
          intro hnil
          rw [hnil] at h
          simp at h
        obtain ⟨m, hm⟩ : ∃ m, n = m + 1 := by
          rcases Nat.exists_eq_succ_of_ne_zero ((polls_eq_nil_iff server n next).not.mp hne) with ⟨m, hm⟩
          exact ⟨m, hm⟩
        subst hm
        rw [polls_getD_zero server m next]
        exact hc
      | succ j =>
        simp only [List.getD_cons_succ]
        apply ih
        simpa using h

/-- Lifting the last element of a trace over an extra leading poll. -/
theorem getLast?_cons_of_some {α : Type} (a : α) (l : List α) (u : α)
    (h : l.getLast? = some u) : (a :: l).getLast? = some u := by
  cases l with
  | nil => cases h
  | cons b l2 => rw [List.getLast?_cons_cons]; exact h

/-- Trace of one `rows.fetch` call: the polled URIs are exactly the handle
chain starting at the current handle; the trace is nonempty; and exactly one
backoff sleep of 800ms separates consecutive polls. -/
theorem fetchAux_polled (server : Server) :
    ∀ fuel r r2 res tr, fetchAux server fuel r = some (r2, res, tr) →
      tr.polled = polls server fuel r.nextURI ∧ tr.polled ≠ [] ∧
      tr.sleeps = List.replicate (tr.polled.length - 1) backoffIntervalMs := by
  intro fuel
  induction fuel with
  | zero => intro r r2 res tr h; cases h
  | succ n ih =>
    intro r r2 res tr h
    cases hc : classify server r.nextURI with
    | failed e =>
      rw [fetchAux_failed server n r e hc] at h
      simp only [Option.some.injEq, Prod.mk.injEq] at h
      obtain ⟨hr, hres, htr⟩ := h
      subst htr
      refine ⟨?_, by simp, rfl⟩
      rw [polls_failed server n r.nextURI e hc]
    | surfaced q =>
      rw [fetchAux_gotData server n r q hc] at h
      by_cases hd : q.data = []
      · rw [if_pos hd] at h
        simp only [Option.some.injEq, Prod.mk.injEq] at h
        obtain ⟨hr, hres, htr⟩ := h
        subst htr
        refine ⟨?_, by simp, rfl⟩
        rw [polls_gotData server n r.nextURI q hc]
      · rw [if_neg hd] at h
        simp only [Option.some.injEq, Prod.mk.injEq] at h
        obtain ⟨hr, hres, htr⟩ := h
        subst htr
        refine ⟨?_, by simp, rfl⟩
        rw [polls_gotData server n r.nextURI q hc]
    | notReady next =>
      rw [fetchAux_notReady server n r next hc] at h
      cases hf : fetchAux server n { r with nextURI := next } with
      | none => rw [hf] at h; cases h
      | some trip =>
        obtain ⟨r3, res3, tr3⟩ := trip
        rw [hf] at h
        simp only [Option.some.injEq, Prod.mk.injEq] at h
        obtain ⟨hr, hres, htr⟩ := h
        obtain ⟨hp, hn, hs⟩ := ih _ _ _ _ hf
        subst htr
        refine ⟨?_, by simp, ?_⟩
        · show r.nextURI :: tr3.polled = polls server (n+1) r.nextURI
          rw [polls_notReady server n r.nextURI next hc, hp]
        · show backoffIntervalMs :: tr3.sleeps =
            List.replicate ((r.nextURI :: tr3.polled).length - 1) backoffIntervalMs
          rw [hs]
          cases hne : tr3.polled with
          | nil => exact absurd hne hn
          | cons a l => simp [List.replicate_succ]

/-- `rows.fetch` returns within the fuel bound exactly unless every poll
along the chain is a not-ready poll. -/
theorem fetchAux_none_iff (server : Server) :
    ∀ fuel r, fetchAux server fuel r = none ↔ allNotReady server fuel r.nextURI = true := by
  intro fuel
  induction fuel with
  | zero => intro r; exact ⟨fun _ => rfl, fun _ => rfl⟩
  | succ n ih =>
    intro r
    have hall : allNotReady server (n+1) r.nextURI =
        (match classify server r.nextURI with
         | .notReady next => allNotReady server n next
         | _ => false) := rfl
    cases hc : classify server r.nextURI with
    | failed e =>
      rw [fetchAux_failed server n r e hc, hall, hc]
      exact ⟨fun h => Option.noConfusion h, fun h => Bool.noConfusion h⟩
    | surfaced q =>
      rw [fetchAux_gotData server n r q hc, hall, hc]
      by_cases hd : q.data = []
      · rw [if_pos hd]
        exact ⟨fun h => Option.noConfusion h, fun h => Bool.noConfusion h⟩
      · rw [if_neg hd]
        exact ⟨fun h => Option.noConfusion h, fun h => Bool.noConfusion h⟩
    | notReady next =>
      rw [fetchAux_notReady server n r next hc, hall, hc]
      cases hf : fetchAux server n { r with nextURI := next } with
      | none =>
        exact ⟨fun _ => (ih _).mp hf, fun _ => rfl⟩
      | some trip =>
        obtain ⟨r3, res3, tr3⟩ := trip
        constructor
        · intro h; exact Option.noConfusion h
        · intro h
          rw [(ih { r with nextURI := next }).mpr h] at hf
          exact Option.noConfusion hf

/-- Outcome of one `rows.fetch` call: either the last poll of the trace
failed and its error (never `io.EOF`) is returned with the schema fields
untouched, or the last poll surfaced a page and the state adopts its data,
handle and — only when the schema was not yet bound — its columns;
an empty surfaced page is reported as `io.EOF`. -/
theorem fetchAux_result (server : Server) :
    ∀ fuel r r2 res tr, fetchAux server fuel r = some (r2, res, tr) →
      ((∃ e u, res = some e ∧ e ≠ GoError.ioEOF ∧ tr.polled.getLast? = some u ∧
          classify server u = .failed e ∧
          r2.fetched = r.fetched ∧ r2.columns = r.columns ∧ r2.types = r.types) ∨
       (∃ u q, tr.polled.getLast? = some u ∧ classify server u = .surfaced q ∧
          res = (if q.data = [] then some GoError.ioEOF else none) ∧
          r2.data = q.data ∧ r2.rowindex = 0 ∧ r2.nextURI = q.nextURI ∧
          r2.fetched = true ∧
          (r.fetched = true → r2.columns = r.columns ∧ r2.types = r.types) ∧
          (r.fetched = false →
            r2.columns = q.columns.map Column.name ∧
            r2.types = q.columns.map (fun col => chooseConverter col.type)))) := by
  intro fuel
  induction fuel with
  | zero => intro r r2 res tr h; cases h
  | succ n ih =>
    intro r r2 res tr h
    cases hc : classify server r.nextURI with
    | failed e =>
      rw [fetchAux_failed server n r e hc] at h
      simp only [Option.some.injEq, Prod.mk.injEq] at h
      obtain ⟨hr, hres, htr⟩ := h
      subst hr
      subst htr
      exact Or.inl ⟨e, r.nextURI, hres.symm, classify_failed_ne_ioEOF server r.nextURI e hc,
        rfl, hc, rfl, rfl, rfl⟩
    | notReady next =>
      rw [fetchAux_notReady server n r next hc] at h
      cases hf : fetchAux server n { r with nextURI := next } with
      | none => rw [hf] at h; cases h
      | some trip =>
        obtain ⟨r3, res3, tr3⟩ := trip
        rw [hf] at h
        simp only [Option.some.injEq, Prod.mk.injEq] at h
        obtain ⟨hr, hres, htr⟩ := h
        subst hr
        subst htr
        rcases ih _ _ _ _ hf with
          ⟨e, u, h1, h2, h3, h4, h5, h6, h7⟩ | ⟨u, q, h1, h2, h3, h4, h5, h6, h7, h8, h9⟩
        · exact Or.inl ⟨e, u, hres.symm.trans h1, h2,
            getLast?_cons_of_some _ _ _ h3, h4, h5, h6, h7⟩
        · exact Or.inr ⟨u, q, getLast?_cons_of_some _ _ _ h1, h2,
            hres.symm.trans h3, h4, h5, h6, h7, h8, h9⟩
    | surfaced q =>
      rw [fetchAux_gotData server n r q hc] at h
      by_cases hd : q.data = []
      · rw [if_pos hd] at h
        by_cases hfb : r.fetched = true
        · rw [if_pos hfb] at h
          simp only [Option.some.injEq, Prod.mk.injEq] at h
          obtain ⟨hr, hres, htr⟩ := h
          subst hr
          subst htr
          exact Or.inr ⟨r.nextURI, q, rfl, hc, by rw [if_pos hd]; exact hres.symm,
            rfl, rfl, rfl, hfb, fun _ => ⟨rfl, rfl⟩,
            fun hft => absurd hfb (by simp [hft])⟩
        · rw [if_neg hfb] at h
          simp only [Option.some.injEq, Prod.mk.injEq] at h
          obtain ⟨hr, hres, htr⟩ := h
          subst hr
          subst htr
          exact Or.inr ⟨r.nextURI, q, rfl, hc, by rw [if_pos hd]; exact hres.symm,
            rfl, rfl, rfl, rfl, fun hft => absurd hft hfb, fun _ => ⟨rfl, rfl⟩⟩
      · rw [if_neg hd] at h
        by_cases hfb : r.fetched = true
        · rw [if_pos hfb] at h
          simp only [Option.some.injEq, Prod.mk.injEq] at h
          obtain ⟨hr, hres, htr⟩ := h
          subst hr
          subst htr
          exact Or.inr ⟨r.nextURI, q, rfl, hc, by rw [if_neg hd]; exact hres.symm,
            rfl, rfl, rfl, hfb, fun _ => ⟨rfl, rfl⟩,
            fun hft => absurd hfb (by simp [hft])⟩
        · rw [if_neg hfb] at h
          simp only [Option.some.injEq, Prod.mk.injEq] at h
          obtain ⟨hr, hres, htr⟩ := h
          subst hr
          subst htr
          exact Or.inr ⟨r.nextURI, q, rfl, hc, by rw [if_neg hd]; exact hres.symm,
            rfl, rfl, rfl, rfl, fun hft => absurd hft hfb, fun _ => ⟨rfl, rfl⟩⟩

/-- C1 (counterexample): a transport-level failure of the submission POST is
propagated as the raw transport error, which is a different error value from
`ErrQueryFailed`; the poll path behaves the same way. -/
theorem C1_counterexample :
    stmtQuery (.doFail "connection refused") 0 =
      .error (.transportErr "connection refused") ∧
    GoError.transportErr "connection refused" ≠ GoError.errQueryFailed ∧
    waitForData (fun _ => .doFail "connection refused") { nextURI := "h1" } =
      ({ nextURI := "h1" }, .failed (.transportErr "connection refused")) ∧
    GoError.reqErr "bad uri" ≠ GoError.errQueryFailed := by
  refine ⟨rfl, by decide, rfl, by decide⟩

/-- C1 (amended): when the HTTP transport call itself fails, both the
submission and the poll propagate the raw transport error unchanged; a
response with a non-success status (the request completed) is what fails
with `ErrQueryFailed`. -/
theorem C1_amended (msg : String) (status : Nat) (body : Body)
    (server : Server) (r : RowsState) :
    stmtQuery (.doFail msg) 0 = .error (.transportErr msg) ∧
    (status ≠ 200 → stmtQuery (.resp status body) 0 = .error .errQueryFailed) ∧
    (server r.nextURI = .doFail msg →
      waitForData server r = (r, .failed (.transportErr msg))) ∧
    (server r.nextURI = .resp status body → status ≠ 200 →
      waitForData server r = (r, .failed .errQueryFailed)) := by
  refine ⟨rfl, ?_, ?_, ?_⟩
  · intro h
    simp only [stmtQuery, if_pos h]
    rfl
  · intro h
    unfold waitForData
    rw [h]
  · intro h h200
    unfold waitForData
    rw [h]
    simp only [if_pos h200]

/-- C1 (witness): the amended statement at a concrete transport failure and
a concrete 500 response. -/
theorem C1_amended_witness :
    stmtQuery (.doFail "connection refused") 0 =
      .error (.transportErr "connection refused") ∧
    stmtQuery (.resp 500 (.malformed "")) 0 = .error .errQueryFailed := by
  have h := C1_amended "connection refused" 500 (.malformed "")
    (fun _ => .doFail "connection refused") { nextURI := "h1" }
  exact ⟨h.1, h.2.1 (by decide)⟩

/-- C6: when the immediate submission response decodes with state FAILED,
`stmt.Query` fails at once with the server-reported structured error held
verbatim, and the whole driver flow issues no poll GET at all. -/
theorem C6_failed_submission (sresp : QueryResponse) (server : Server) (fuel : Nat)
    (h : sresp.stats.state = "FAILED") :
    stmtQuery (.resp 200 (.decoded sresp)) 0 = .error (.serverErr sresp.error) ∧
    runQueryPolls (.resp 200 (.decoded sresp)) 0 server fuel = some [] := by
  have h1 : stmtQuery (.resp 200 (.decoded sresp)) 0 = .error (.serverErr sresp.error) := by
    simp only [stmtQuery, if_pos h]
    rfl
  refine ⟨h1, ?_⟩
  unfold runQueryPolls
  rw [h1]

/-- C6 (witness): scenario B — a first response with state FAILED and error
message "syntax error" fails immediately with that error and polls nothing. -/
theorem C6_failed_submission_witness :
    stmtQuery (.resp 200 (.decoded failedSubmission)) 0 =
      .error (.serverErr ⟨"syntax error"⟩) ∧
    runQueryPolls (.resp 200 (.decoded failedSubmission)) 0 serverCycle 5 = some [] :=
  C6_failed_submission failedSubmission serverCycle 5 (by decide)

/-- C7: the timestamp-with-time-zone converter falls back to the plain
timestamp converter on the whole value when the value is no longer than the
timestamp layout or contains no space; otherwise it splits at the last
space, loads the trimmed trailing token as a time zone and parses the
leading part with `TimestampFormat` in that zone. -/
theorem C7_timestamp_with_timezone (lib : TimeLib) (vv : String) :
    (vv.length ≤ TimestampFormat.length →
      timestampWithTimezoneConverter lib (.str vv) = timestampConverter lib (.str vv)) ∧
    (lastIndexOf vv ' ' = none →
      timestampWithTimezoneConverter lib (.str vv) = timestampConverter lib (.str vv)) ∧
    (∀ i, TimestampFormat.length < vv.length → lastIndexOf vv ' ' = some i →
      timestampWithTimezoneConverter lib (.str vv) =
        (match loadLocation lib (goTrimSpace (strDrop vv i)) with
         | .error e => .error e
         | .ok tz =>
           match parseInLocation lib TimestampFormat (strTake vv i) tz with
           | .error e => .error e
           | .ok ts => .ok (.time ts))) := by
  refine ⟨?_, ?_, ?_⟩
  · intro h
    simp only [timestampWithTimezoneConverter, if_pos h]
  · intro h
    by_cases hl : vv.length ≤ TimestampFormat.length
    · simp only [timestampWithTimezoneConverter, if_pos hl]
    · simp only [timestampWithTimezoneConverter, if_neg hl, h]
  · intro i hlen hfind
    have hl : ¬ vv.length ≤ TimestampFormat.length := not_le.mpr hlen
    simp only [timestampWithTimezoneConverter, if_neg hl, hfind]

/-- C7 (witness): scenario D — "2020-01-01 00:00:00.000 UTC" is split at its
last space (index 23), the zone token "UTC" is loaded and the leading part
is parsed with the timestamp layout in that zone; and a value exactly as
long as the layout falls back to the plain timestamp converter. -/
theorem C7_timestamp_with_timezone_witness :
    (TimestampFormat.length < ("2020-01-01 00:00:00.000 UTC" : String).length ∧
      lastIndexOf "2020-01-01 00:00:00.000 UTC" ' ' = some 23) ∧
    timestampWithTimezoneConverter lib0 (.str "2020-01-01 00:00:00.000 UTC") =
      .ok (.time ⟨TimestampFormat, "2020-01-01 00:00:00.000", "UTC"⟩) ∧
    timestampWithTimezoneConverter lib0 (.str "2020-01-01 00:00:00.000") =
      timestampConverter lib0 (.str "2020-01-01 00:00:00.000") := by
  refine ⟨⟨by decide, by decide⟩, ?_, ?_⟩
  · rw [(C7_timestamp_with_timezone lib0 "2020-01-01 00:00:00.000 UTC").2.2 23
      (by decide) (by decide)]
    decide
  · exact (C7_timestamp_with_timezone lib0 "2020-01-01 00:00:00.000").1 (by decide)

/-- C8: the integer converter truncates every `float64` wire value to an
`int64` and fails on every other non-null value with an error identifying
the value, its Go runtime type and the target type `int64`. -/
theorem C8_bigint (v : RawValue) (hv : v ≠ .null) :
    (∀ q, v = .num q → bigIntConverter v = .ok (.int64 (goTruncToInt64 q))) ∧
    ((∀ q, v ≠ .num q) → bigIntConverter v = .error (.convErr v (goTypeName v) "int64")) := by
  constructor
  · intro q hq
    subst hq
    rfl
  · intro h
    cases v with
    | null => exact absurd rfl hv
    | num q => exact absurd rfl (h q)
    | str s => rfl
    | boolean b => rfl
    | nested r => rfl

/-- C8 (witness): 2.5 truncates to 2, -2.5 truncates to -2, and the string
"42" fails with the error naming the value, the runtime type string and the
target int64. -/
theorem C8_bigint_witness :
    bigIntConverter (.num (Rat.divInt 5 2)) = .ok (.int64 2) ∧
    bigIntConverter (.num (Rat.divInt (-5) 2)) = .ok (.int64 (-2)) ∧
    bigIntConverter (.str "42") = .error (.convErr (.str "42") "string" "int64") := by
  refine ⟨?_, ?_, ?_⟩
  · rw [(C8_bigint (.num (Rat.divInt 5 2)) (by decide)).1 (Rat.divInt 5 2) rfl]
    decide
  · rw [(C8_bigint (.num (Rat.divInt (-5) 2)) (by decide)).1 (Rat.divInt (-5) 2) rfl]
    decide
  · exact (C8_bigint (.str "42") (by decide)).2
      (fun q h => RawValue.noConfusion h)

theorem configSet_same (c : Config) (k v : String) : configSet c k v k = some v := by
  simp [configSet]

theorem configSet_other (c : Config) (k v k2 : String) (h : k2 ≠ k) :
    configSet c k v k2 = c k2 := by
  simp [configSet, h]

/-- Folding the query-parameter merge over keys not containing `k` leaves
the entry at `k` unchanged. -/
theorem foldl_configSet_skip (l : List (String × List String)) (c : Config) (k : String)
    (h : k ∉ l.map Prod.fst) :
    (l.foldl (fun c kv => configSet c kv.1 (String.intercalate "," kv.2)) c) k = c k := by
  induction l generalizing c with
  | nil => rfl
  | cons kv l ih =>
    simp only [List.map_cons, List.mem_cons, not_or] at h
    rw [List.foldl_cons, ih _ h.2, configSet_other _ _ _ _ h.1]

/-- Folding the query-parameter merge over an association list with
pairwise-distinct keys yields, at a present key, its comma-joined values. -/
theorem foldl_configSet_mem (l : List (String × List String)) (c : Config)
    (k : String) (vs : List String) (hnd : (l.map Prod.fst).Nodup)
    (hmem : (k, vs) ∈ l) :
    (l.foldl (fun c kv => configSet c kv.1 (String.intercalate "," kv.2)) c) k
      = some (String.intercalate "," vs) := by
  induction l generalizing c with
  | nil => cases hmem
  | cons kv l ih =>
    rw [List.map_cons, List.nodup_cons] at hnd
    rcases List.mem_cons.mp hmem with heq | hmem2
    · subst heq
      rw [List.foldl_cons, foldl_configSet_skip l _ k hnd.1, configSet_same]
    · rw [List.foldl_cons]
      exact ih _ hnd.2 hmem2

/-- C10: every query parameter of the data source name is merged into the
configuration map after the entries derived from the URL's authority, path
and documented defaults are set, so a query parameter named user, addr,
catalog or schema (like any other key) takes effect in place of those
values, whatever the rest of the URL says. -/
theorem C10_query_params_override (u : URL) (c : Config) (k : String)
    (vs : List String) (hnd : (u.query.map Prod.fst).Nodup)
    (hmem : (k, vs) ∈ u.query) :
    parseDataSource u c k = some (String.intercalate "," vs) := by
  unfold parseDataSource
  exact foldl_configSet_mem u.query _ k vs hnd hmem

/-- C10 (witness): with userinfo "alice", a host-derived addr, and path
segments "cat"/"sch" present, the query parameters user=bob, addr=other:1,
catalog=c2, schema=s2 each decide the final configuration entry. -/
theorem C10_query_params_override_witness :
    parseDataSource
      ⟨some "alice", "example.com:9000", "/cat/sch",
        [("user", ["bob"]), ("addr", ["other:1"]), ("catalog", ["c2"]), ("schema", ["s2"])]⟩
      emptyConfig "user" = some "bob" ∧
    parseDataSource
      ⟨some "alice", "example.com:9000", "/cat/sch",
        [("user", ["bob"]), ("addr", ["other:1"]), ("catalog", ["c2"]), ("schema", ["s2"])]⟩
      emptyConfig "schema" = some "s2" := by
  constructor
  · exact C10_query_params_override _ emptyConfig "user" ["bob"] (by decide) (by decide)
  · exact C10_query_params_override _ emptyConfig "schema" ["s2"] (by decide) (by decide)

/-- C2: as long as every poll answers with a non-terminal state
(QUEUED/PLANNING/STARTING/RUNNING) and an empty data page, `rows.fetch`
never returns anything to the caller; and on any returning fetch, the first
poll uses the current handle, one hard-coded 800ms sleep separates
consecutive polls, and every re-poll uses exactly the handle recorded from
the previous not-ready response. -/
theorem C2_backoff_loop (server : Server) (fuel : Nat) (r : RowsState) :
    (allNotReady server fuel r.nextURI = true → fetchAux server fuel r = none) ∧
    (∀ r2 res tr, fetchAux server fuel r = some (r2, res, tr) →
      tr.polled.head? = some r.nextURI ∧
      tr.sleeps = List.replicate (tr.polled.length - 1) backoffIntervalMs ∧
      (∀ i, i + 1 < tr.polled.length →
        classify server (tr.polled.getD i "") = .notReady (tr.polled.getD (i+1) ""))) := by
  constructor
  · intro h
    exact (fetchAux_none_iff server fuel r).mpr h
  · intro r2 res tr h
    obtain ⟨hp, hn, hs⟩ := fetchAux_polled server fuel r r2 res tr h
    obtain ⟨m, hm⟩ : ∃ m, fuel = m + 1 := by
      cases fuel with
      | zero => cases h
      | succ m => exact ⟨m, rfl⟩
    subst hm
    refine ⟨?_, hs, ?_⟩
    · rw [hp]
      exact polls_head server m r.nextURI
    · intro i hlt
      rw [hp] at hlt ⊢
      exact polls_chain server (m+1) r.nextURI i hlt

/-- C2 (witness): a transport that forever answers RUNNING with no data
makes the fetch loop poll without ever returning; on the three-poll chain
that does surface, the sleeps are one 800ms backoff per re-poll and the
second poll uses the handle recorded from the first not-ready response. -/
theorem C2_backoff_loop_witness :
    fetchAux serverCycle 3 { nextURI := "h1" } = none ∧
    (⟨["h1", "h2", "h3"], [backoffIntervalMs, backoffIntervalMs]⟩ : FetchTrace).sleeps =
      List.replicate ((["h1", "h2", "h3"] : List String).length - 1) backoffIntervalMs ∧
    classify serverChain "h1" = .notReady "h2" := by
  have hfetch : fetchAux serverChain 3 { nextURI := "h1" } =
      some (⟨"", true, 0, ["x"], [.stringConv], [[.str "one"]]⟩, none,
        ⟨["h1", "h2", "h3"], [backoffIntervalMs, backoffIntervalMs]⟩) := by decide
  have h2c := (C2_backoff_loop serverChain 3 { nextURI := "h1" }).2 _ _ _ hfetch
  exact ⟨(C2_backoff_loop serverCycle 3 { nextURI := "h1" }).1 (by decide),
    h2c.2.1, h2c.2.2 0 (by decide)⟩

/-- C3 (counterexample): a not-ready poll may itself carry a non-empty
`columns` field, and the schema is not bound from it: with columns named
"x" on the not-ready response and "y" on the surfaced page, the bound
schema is ["y"], not the claim's ["x"]. -/
theorem C3_counterexample :
    serverC3 "h1" = .resp 200 (.decoded ⟨⟨"QUEUED"⟩, ⟨""⟩, "h2", [⟨"x", "bigint"⟩], []⟩) ∧
    fetchAux serverC3 2 { nextURI := "h1" } =
      some (⟨"", true, 0, ["y"], [.stringConv], [[.str "one"]]⟩, none,
        ⟨["h1", "h2"], [backoffIntervalMs]⟩) ∧
    (["y"] : List String) ≠ ["x"] := by
  refine ⟨by decide, by decide, by decide⟩

/-- C3 (amended): the schema and the per-column converters are bound exactly
once, at the first fetch that surfaces a poll response (one carrying data or
a terminal-success state), from that response's `columns` field — columns on
skipped not-ready polls are ignored — and they are never rebuilt on any
later fetch, even if a later page also includes a `columns` field. -/
theorem C3_schema_bound_once (server : Server) (fuel : Nat) (r r2 : RowsState)
    (res : Option GoError) (tr : FetchTrace)
    (h : fetchAux server fuel r = some (r2, res, tr)) :
    (r.fetched = true → r2.columns = r.columns ∧ r2.types = r.types ∧ r2.fetched = true) ∧
    (r.fetched = false → res = none ∨ res = some GoError.ioEOF →
      ∃ u q, tr.polled.getLast? = some u ∧ classify server u = .surfaced q ∧
        r2.columns = q.columns.map Column.name ∧
        r2.types = q.columns.map (fun col => chooseConverter col.type) ∧
        r2.fetched = true) := by
  rcases fetchAux_result server fuel r r2 res tr h with
    ⟨e, u, h1, h2, h3, h4, h5, h6, h7⟩ | ⟨u, q, h1, h2, h3, h4, h5, h6, h7, h8, h9⟩
  · constructor
    · intro hft
      exact ⟨h6, h7, h5.trans hft⟩
    · intro hff hres
      exfalso
      rcases hres with hres | hres
      · rw [h1] at hres
        exact Option.noConfusion hres
      · rw [h1] at hres
        exact h2 (Option.some.inj hres)
  · constructor
    · intro hft
      obtain ⟨hcol, htyp⟩ := h8 hft
      exact ⟨hcol, htyp, h7⟩
    · intro hff _
      obtain ⟨hcol, htyp⟩ := h9 hff
      exact ⟨u, q, h1, h2, hcol, htyp, h7⟩

/-- C3 (witness): a rows value whose schema is already bound (columns
["keep"]) fetches a final page that itself carries a `columns` field, and
the bound schema is left untouched. -/
theorem C3_schema_bound_once_witness :
    fetchAux serverFinal 1
        { nextURI := "h1", fetched := true, rowindex := 0, columns := ["keep"],
          types := [], data := [] } =
      some (⟨"", true, 0, ["keep"], [], []⟩, some .ioEOF, ⟨["h1"], []⟩) ∧
    (⟨"", true, 0, ["keep"], [], []⟩ : RowsState).columns = ["keep"] := by
  have hfetch : fetchAux serverFinal 1
      { nextURI := "h1", fetched := true, rowindex := 0, columns := ["keep"],
        types := [], data := [] } =
      some (⟨"", true, 0, ["keep"], [], []⟩, some .ioEOF, ⟨["h1"], []⟩) := by decide
  exact ⟨hfetch, ((C3_schema_bound_once serverFinal 1 _ _ _ _ hfetch).1 rfl).1⟩

/-- The direct end-of-stream branch of `rows.Next`: page exhausted (or
nothing fetched) and no continuation handle left. -/
theorem Next_exhausted_no_handle (server : Server) (lib : TimeLib) (fuel : Nat)
    (r : RowsState)
    (hneed : r.fetched = false ∨ r.data.length ≤ r.rowindex)
    (hne : r.nextURI = "") :
    Next server lib fuel r = some (r, .error .ioEOF) := by
  have hcond : (!r.fetched || decide (r.data.length ≤ r.rowindex)) = true := by
    rcases hneed with h | h
    · rw [h]
      rfl
    · simp [h]
  simp only [Next, if_pos hcond, if_pos hne]

/-- C4: when the poll at the current handle surfaces a terminal response
with zero data rows and no next handle, `rows.Next` reports a clean
`io.EOF` — no row is delivered — the resulting state has no handle and no
data, every later `Next` keeps reporting `io.EOF`, and `io.EOF` is distinct
from the failure error kinds. -/
theorem C4_clean_eof (server : Server) (lib : TimeLib) (fuel : Nat) (r : RowsState)
    (q : QueryResponse)
    (hneed : r.fetched = false ∨ r.data.length ≤ r.rowindex)
    (hne : r.nextURI ≠ "")
    (hc : classify server r.nextURI = .surfaced q)
    (hdata : q.data = []) (hnext : q.nextURI = "") :
    ∃ r2, Next server lib (fuel+1) r = some (r2, .error .ioEOF) ∧
      r2.nextURI = "" ∧ r2.data = [] ∧ r2.fetched = true ∧
      Next server lib (fuel+1) r2 = some (r2, .error .ioEOF) ∧
      GoError.ioEOF ≠ GoError.errQueryFailed ∧
      GoError.ioEOF ≠ GoError.errQueryCanceled := by
  have hcond : (!r.fetched || decide (r.data.length ≤ r.rowindex)) = true := by
    rcases hneed with h | h
    · rw [h]
      rfl
    · simp [h]
  by_cases hfb : r.fetched = true
  · refine ⟨{ r with rowindex := 0, data := q.data, nextURI := q.nextURI },
      ?_, hnext, hdata, hfb, ?_, by decide, by decide⟩
    · have hfetch : fetchAux server (fuel+1) r =
          some ({ r with rowindex := 0, data := q.data, nextURI := q.nextURI },
            some .ioEOF, ⟨[r.nextURI], []⟩) := by
        rw [fetchAux_gotData server fuel r q hc, if_pos hdata, if_pos hfb]
      simp only [Next, if_pos hcond, if_neg hne, hfetch]
    · exact Next_exhausted_no_handle server lib (fuel+1) _
        (Or.inr (by simp [hdata])) hnext
  · refine ⟨bindSchema { r with rowindex := 0, data := q.data, nextURI := q.nextURI } q,
      ?_, hnext, hdata, rfl, ?_, by decide, by decide⟩
    · have hfetch : fetchAux server (fuel+1) r =
          some (bindSchema { r with rowindex := 0, data := q.data, nextURI := q.nextURI } q,
            some .ioEOF, ⟨[r.nextURI], []⟩) := by
        rw [fetchAux_gotData server fuel r q hc, if_pos hdata, if_neg hfb]
      simp only [Next, if_pos hcond, if_neg hne, hfetch]
    · exact Next_exhausted_no_handle server lib (fuel+1) _
        (Or.inr (by simp [bindSchema, hdata])) hnext

/-- C4 (witness): a single FINISHED response with a schema, no rows and no
next handle yields `io.EOF` from the first `Next` on, with no row delivered. -/
theorem C4_clean_eof_witness :
    ∃ r2, Next serverFinal lib0 1 { nextURI := "h1" } = some (r2, .error .ioEOF) ∧
      r2.nextURI = "" ∧ r2.data = [] ∧ r2.fetched = true ∧
      Next serverFinal lib0 1 r2 = some (r2, .error .ioEOF) ∧
      GoError.ioEOF ≠ GoError.errQueryFailed ∧
      GoError.ioEOF ≠ GoError.errQueryCanceled :=
  C4_clean_eof serverFinal lib0 0 { nextURI := "h1" }
    ⟨⟨"FINISHED"⟩, ⟨""⟩, "", [⟨"x", "bigint"⟩], []⟩
    (Or.inl rfl) (by decide) (by decide) rfl rfl

/-- C5: within one fetch, the first poll uses the current handle and every
further poll uses exactly the handle supplied by the preceding not-ready
response; when the handles supplied along the chain are pairwise distinct,
no handle is ever polled twice; and after a page is surfaced the rows value
holds that page's next handle, so the following fetch again starts from the
most recently received handle. -/
theorem C5_each_handle_once (server : Server) (fuel : Nat) (r r2 : RowsState)
    (res : Option GoError) (tr : FetchTrace)
    (h : fetchAux server fuel r = some (r2, res, tr)) :
    tr.polled.head? = some r.nextURI ∧
    (∀ i, i + 1 < tr.polled.length →
      classify server (tr.polled.getD i "") = .notReady (tr.polled.getD (i+1) "")) ∧
    ((polls server fuel r.nextURI).Nodup → tr.polled.Nodup) ∧
    (∀ u q, tr.polled.getLast? = some u → classify server u = .surfaced q →
      r2.nextURI = q.nextURI) := by
  obtain ⟨hp, hn, hs⟩ := fetchAux_polled server fuel r r2 res tr h
  obtain ⟨m, hm⟩ : ∃ m, fuel = m + 1 := by
    cases fuel with
    | zero => cases h
    | succ m => exact ⟨m, rfl⟩
  subst hm
  refine ⟨?_, ?_, ?_, ?_⟩
  · rw [hp]
    exact polls_head server m r.nextURI
  · intro i hlt
    rw [hp] at hlt ⊢
    exact polls_chain server (m+1) r.nextURI i hlt
  · intro hnd
    rw [hp]
    exact hnd
  · intro u q hlast hcq
    rcases fetchAux_result server (m+1) r r2 res tr h with
      ⟨e, u2, _, _, h3, h4, _, _, _⟩ | ⟨u2, q2, h1, h2, _, _, _, h6, _, _, _⟩
    · rw [h3] at hlast
      have hu := Option.some.inj hlast
      subst hu
      rw [hcq] at h4
      exact PollClass.noConfusion h4
    · rw [h1] at hlast
      have hu := Option.some.inj hlast
      subst hu
      rw [hcq] at h2
      have hq := PollClass.surfaced.inj h2
      subst hq
      exact h6

/-- C5 (witness): on the three-handle chain the polled handles are pairwise
distinct and the second re-poll uses exactly the handle the second not-ready
response supplied. -/
theorem C5_each_handle_once_witness :
    (["h1", "h2", "h3"] : List String).Nodup ∧
    classify serverChain "h2" = .notReady "h3" := by
  have hfetch : fetchAux serverChain 3 { nextURI := "h1" } =
      some (⟨"", true, 0, ["x"], [.stringConv], [[.str "one"]]⟩, none,
        ⟨["h1", "h2", "h3"], [backoffIntervalMs, backoffIntervalMs]⟩) := by decide
  have h := C5_each_handle_once serverChain 3 _ _ _ _ hfetch
  exact ⟨h.2.2.1 (by decide), h.2.1 1 (by decide)⟩

/-- C9: when the first poll surfaces a FINISHED response carrying a column
schema but zero data rows, `rows.Columns` triggers the fetch, the fetch
binds the schema but reports `io.EOF`, and `Columns` — treating any non-nil
fetch result as failure — returns the empty list instead of the bound
column names. -/
theorem C9_columns_empty_on_eof (server : Server) (fuel : Nat) (r : RowsState)
    (q : QueryResponse)
    (hf : r.fetched = false)
    (hc : classify server r.nextURI = .surfaced q)
    (_hstate : q.stats.state = "FINISHED")
    (hdata : q.data = []) :
    ∃ r2, Columns server (fuel+1) r = some (r2, []) ∧
      r2.columns = q.columns.map Column.name ∧ r2.fetched = true := by
  have hnotfb : ¬ (r.fetched = true) := by
    rw [hf]
    exact Bool.false_ne_true
  have hfetch : fetchAux server (fuel+1) r =
      some (bindSchema { r with rowindex := 0, data := q.data, nextURI := q.nextURI } q,
        some .ioEOF, ⟨[r.nextURI], []⟩) := by
    rw [fetchAux_gotData server fuel r q hc, if_pos hdata, if_neg hnotfb]
  refine ⟨bindSchema { r with rowindex := 0, data := q.data, nextURI := q.nextURI } q,
    ?_, rfl, rfl⟩
  have hcond : (!r.fetched) = true := by
    rw [hf]
    rfl
  simp only [Columns, if_pos hcond, hfetch]

/-- C9 (witness): a FINISHED first response with columns ["x"] and no rows
makes `Columns` return the empty list although the state has bound ["x"]. -/
theorem C9_columns_empty_on_eof_witness :
    ∃ r2, Columns serverFinal 1 { nextURI := "h1" } = some (r2, []) ∧
      r2.columns = ["x"] ∧ r2.fetched = true := by
  obtain ⟨r2, h1, h2, h3⟩ := C9_columns_empty_on_eof serverFinal 0 { nextURI := "h1" }
    ⟨⟨"FINISHED"⟩, ⟨""⟩, "", [⟨"x", "bigint"⟩], []⟩ rfl (by decide) rfl rfl
  exact ⟨r2, h1, h2, h3⟩

end Prestgo
